import Mathlib

namespace CoffeeKG

/-!
# Verification of the coffee-brew knowledge-graph builder

A shallow embedding of `src/build_coffee_kg.py` (functions `slugify`,
`parse_note_intensities`, `ensure_node`, `add_edge`, `build_graph_from_brews`)
together with theorems settling the frozen claims about it.

Modelling conventions:

* Python / pandas cell values are the inductive type `Val`: Python `None`,
  strings, ints and floats.  A float is `PyFloat`: either `nan` (the value
  pandas stores for a missing CSV cell) or an exact rational.  Claims here
  never depend on rounding, so rationals stand in for IEEE doubles.
* `pd.read_csv` is an excluded collaborator: `build_graph_from_brews` takes
  the materialised `Table` (column names plus rows of cells) instead of a
  path.  A row is an association list from column name to cell; pandas
  guarantees every row carries exactly the table's columns.
* The `networkx.MultiDiGraph` is an explicit structure: an association list
  from node id to attribute map, and one from the (source, destination,
  relationship-key) triple to the edge's attribute map.  `G.add_edge` with an
  explicit key `update`s the existing attribute dict; `add_node` appends.
  Dicts are association lists in insertion order (`setA` updates in place or
  appends), matching Python dict semantics.
* `float(x)` / `int(x)` string parsing is modelled for optionally signed
  decimal forms (and `nan` for float); Python's exponent / underscore /
  infinity spellings are not modelled, and no theorem below evaluates them.
* Python `str(x)` on a non-string is rendered by `Val.pyStr`; `str` of a
  float is only an approximate rendering (exact for `nan`, which is the one
  case a theorem below evaluates).
* Python raising `ValueError` is `Except.error`; the error text of the
  schema error is modelled character for character, the text of a float
  coercion `ValueError` is not (no claim mentions it).
-/

/-! ## Python values -/

/-- A Python float as the code observes it: pandas' `NaN` or an exact
rational. -/
inductive PyFloat where
  | nan : PyFloat
  | rat : ℚ → PyFloat
deriving DecidableEq

/-- A Python scalar sitting in a pandas cell or in a node/edge attribute:
`None`, a string, an int (the parsed note intensities), or a float. -/
inductive Val where
  | vNone : Val
  | vStr : String → Val
  | vInt : ℤ → Val
  | vNum : PyFloat → Val
deriving DecidableEq

/-- `pd.notna`: false exactly on `None` and float `NaN`. -/
def pdNotna : Val → Bool
  | .vNone => false
  | .vNum .nan => false
  | _ => true

/-- Python `str()` of a float.  `str(nan) = "nan"`; for finite floats this is
an approximation of CPython's shortest-repr algorithm (no claim below
evaluates it on a finite float). -/
def floatRepr : PyFloat → String
  | .nan => "nan"
  | .rat q => if q.den = 1 then toString q.num ++ ".0" else toString q

/-- Python `str()` of a cell value. -/
def Val.pyStr : Val → String
  | .vNone => "None"
  | .vStr s => s
  | .vInt i => toString i
  | .vNum f => floatRepr f

/-! ## String helpers (Python `strip`, `lower`, number parsing) -/

/-- Python `str.strip()` on a character list (both ends).  Lean's
`Char.isWhitespace` covers the ASCII whitespace Python strips; exotic
Unicode whitespace is not modelled. -/
def pyStripWSL (l : List Char) : List Char :=
  ((l.dropWhile Char.isWhitespace).reverse.dropWhile Char.isWhitespace).reverse

/-- Python `str.strip()` on a string. -/
def pyStrip (s : String) : String :=
  (pyStripWSL s.toList).asString

/-- The numeric value of a list of decimal digits. -/
def digitsToNat (l : List Char) : ℕ :=
  l.foldl (fun a c => a * 10 + (c.toNat - 48)) 0

/-- An unsigned decimal number as Python `float()` accepts it: `d+`, `d+.d*`
or `.d+` (exponents, underscores and infinity spellings not modelled). -/
def parseUnsigned (l : List Char) : Option ℚ :=
  let intPart := l.takeWhile Char.isDigit
  let rest := l.dropWhile Char.isDigit
  match rest with
  | [] => if intPart = [] then none else some (digitsToNat intPart : ℚ)
  | '.' :: frac =>
      if frac.all Char.isDigit ∧ (intPart ≠ [] ∨ frac ≠ []) then
        some ((digitsToNat intPart : ℚ) + (digitsToNat frac : ℚ) / (10 ^ frac.length))
      else none
  | _ => none

/-- An optionally signed decimal number. -/
def parseSignedRat (l : List Char) : Option ℚ :=
  match l with
  | '+' :: t => parseUnsigned t
  | '-' :: t => (parseUnsigned t).map Neg.neg
  | _ => parseUnsigned l

/-- Python `float(s)` for a string argument: surrounding whitespace ignored,
`nan` spellings give `NaN`, else a signed decimal literal; `none` means
`ValueError`. -/
def parsePyFloat (s : String) : Option PyFloat :=
  let t := pyStripWSL s.toList
  let low := t.map Char.toLower
  if low = ['n', 'a', 'n'] ∨ low = ['+', 'n', 'a', 'n'] ∨ low = ['-', 'n', 'a', 'n'] then
    some .nan
  else
    (parseSignedRat t).map .rat

/-- Python `float(x)` on a cell value.  `none` models the `ValueError` /
`TypeError` raised on unparsable strings and on `None`. -/
def tryFloat : Val → Option PyFloat
  | .vNone => none
  | .vStr s => parsePyFloat s
  | .vInt i => some (.rat i)
  | .vNum f => some f

/-- Python `int(s)`: surrounding whitespace ignored, optional sign, decimal
digits (underscores and non-ASCII digits not modelled); `none` means
`ValueError`. -/
def parsePyInt (s : String) : Option ℤ :=
  let t := pyStripWSL s.toList
  match t with
  | '+' :: d => if d ≠ [] ∧ d.all Char.isDigit then some (digitsToNat d : ℤ) else none
  | '-' :: d => if d ≠ [] ∧ d.all Char.isDigit then some (-(digitsToNat d : ℤ)) else none
  | d => if d ≠ [] ∧ d.all Char.isDigit then some (digitsToNat d : ℤ) else none

/-! ## Association lists (Python dicts in insertion order) -/

/-- First-match lookup in an association list. -/
def look {α β : Type} [DecidableEq α] : List (α × β) → α → Option β
  | [], _ => none
  | p :: t, k => if p.1 = k then some p.2 else look t k

/-- Python `d[k] = v`: overwrite in place when the key exists, else append —
insertion order is preserved exactly as a Python dict preserves it. -/
def setA {α β : Type} [DecidableEq α] (l : List (α × β)) (k : α) (v : β) : List (α × β) :=
  if (look l k).isSome then l.map (fun p => if p.1 = k then (k, v) else p)
  else l ++ [(k, v)]

/-- Replace the value stored at key `k` (no change when `k` is absent). -/
def updateA {α β : Type} [DecidableEq α] (l : List (α × β)) (k : α) (v : β) : List (α × β) :=
  l.map (fun p => if p.1 = k then (k, v) else p)

/-! ## slugify (source lines 12-19) -/

/-- A character the regex class `[a-z0-9]` accepts. -/
def okChar (c : Char) : Bool :=
  (97 ≤ c.toNat && c.toNat ≤ 122) || (48 ≤ c.toNat && c.toNat ≤ 57)

/-- `re.sub(r"[^a-z0-9]+", "-", s)`: every maximal run of rejected
characters becomes one hyphen.  The flag records whether the previous
character belonged to a run already replaced. -/
def collapseAux : List Char → Bool → List Char
  | [], _ => []
  | c :: rest, prevBad =>
    if okChar c then c :: collapseAux rest false
    else if prevBad then collapseAux rest true
    else '-' :: collapseAux rest true

/-- `s.strip("-")` on the front of a character list. -/
def dropHyphens (l : List Char) : List Char :=
  l.dropWhile (fun c => c = '-')

/-- `s.strip("-")`: leading and trailing hyphens removed. -/
def stripHyphens (l : List Char) : List Char :=
  (dropHyphens ((dropHyphens l).reverse)).reverse

/-- `slugify` (lines 12-19): strip, lowercase (`Char.toLower`, the ASCII
case of Python's Unicode `str.lower`), collapse runs of non-`[a-z0-9]` to a
hyphen, strip hyphens, and fall back to `"unknown"` for an empty result. -/
def slugify (s : String) : String :=
  let t := (pyStripWSL s.toList).map Char.toLower
  let u := stripHyphens (collapseAux t false)
  if u = [] then "unknown" else u.asString

/-! ## parse_note_intensities (source lines 22-42) -/

/-- `p.split(":", 1)`: the part before the first colon and the part after. -/
def splitFirstColon (l : List Char) : List Char × List Char :=
  (l.takeWhile (fun c => c ≠ ':'), (l.dropWhile (fun c => c ≠ ':')).drop 1)

/-- Python `s.split(sep)` for a one-character separator (structural, so
that concrete runs reduce inside the kernel). -/
def splitOnChar (sep : Char) : List Char → List (List Char)
  | [] => [[]]
  | c :: t =>
      let r := splitOnChar sep t
      if c = sep then [] :: r
      else
        match r with
        | h :: t2 => (c :: h) :: t2
        | [] => [[c]]

/-- `parse_note_intensities` (lines 22-42) on a cell value, keeping the
`isinstance(s, str)` guard: blank or non-string input gives an empty dict;
each `;`-segment is stripped and dropped when empty; a segment without a
colon, with an empty key after stripping, or with a value `int()` rejects is
dropped; surviving pairs are inserted with dict overwrite semantics. -/
def parse_note_intensities (v : Val) : List (String × ℤ) :=
  match v with
  | .vStr s =>
      if pyStripWSL s.toList = [] then []
      else
        let parts := ((splitOnChar ';' s.toList).map pyStripWSL).filter (fun p => p ≠ [])
        parts.foldl (fun out p =>
          if p.contains ':' then
            let q := splitFirstColon p
            let note := (pyStripWSL q.1).asString
            match parsePyInt q.2.asString with
            | some i => if note ≠ "" then setA out note i else out
            | none => out
          else out) []
  | _ => []

/-! ## The graph (networkx MultiDiGraph) and the node/edge primitives -/

/-- An attribute dict of a node or edge. -/
abbrev Attrs := List (String × Val)

/-- The directed multigraph: node id → attributes, and
(source, destination, relationship-key) → attributes.  Every edge of this
program is added with `key=rel`, so the triple identifies the edge. -/
structure Graph where
  nodes : List (String × Attrs)
  edges : List ((String × String × String) × Attrs)
deriving DecidableEq

/-- The empty `nx.MultiDiGraph()`. -/
def emptyMDG : Graph := ⟨[], []⟩

/-- An attribute of a node, when both exist. -/
def nodeAttr (G : Graph) (id k : String) : Option Val :=
  (look G.nodes id).bind (fun a => look a k)

/-- An attribute of an edge (keyed by its triple), when both exist. -/
def edgeAttr (G : Graph) (t : String × String × String) (k : String) : Option Val :=
  (look G.edges t).bind (fun a => look a k)

/-- The merge loop of `ensure_node` (lines 60-63): a property is written
only when the new value is neither `None` nor `""` and the stored value is
missing, `None` or `""`. -/
def mergeProps (attrs : Attrs) (props : Attrs) : Attrs :=
  props.foldl (fun a kv =>
    if kv.2 ≠ Val.vNone ∧ kv.2 ≠ Val.vStr "" ∧
        (look a kv.1 = none ∨ look a kv.1 = some Val.vNone ∨ look a kv.1 = some (Val.vStr "")) then
      setA a kv.1 kv.2
    else a) attrs

/-- `ensure_node` (lines 45-63): create the node with `label`, `type` and
all the properties when absent; else merge the properties, keeping existing
non-empty values.  (`props` never carries a `label`/`type` key in this
program: Python keyword passing would reject the duplicate.) -/
def ensure_node (G : Graph) (node_id label node_type : String) (props : Attrs) : Graph :=
  match look G.nodes node_id with
  | none =>
      { G with nodes := G.nodes ++ [(node_id, ("label", Val.vStr label) :: ("type", Val.vStr node_type) :: props)] }
  | some attrs =>
      { G with nodes := updateA G.nodes node_id (mergeProps attrs props) }

/-- The endpoint auto-add of networkx `add_edge`: a missing endpoint becomes
a node with an empty attribute dict. -/
def addNodeIfAbsent (G : Graph) (n : String) : Graph :=
  match look G.nodes n with
  | some _ => G
  | none => { G with nodes := G.nodes ++ [(n, [])] }

/-- `add_edge` (lines 66-76), i.e. `G.add_edge(src, dst, key=rel, type=rel,
**props)`: networkx first adds missing endpoints as attribute-less nodes,
then `update`s the attribute dict stored under the explicit key — an
existing edge keeps attribute keys the new call does not mention. -/
def add_edge (G : Graph) (src rel dst : String) (props : Attrs) : Graph :=
  let G2 := addNodeIfAbsent (addNodeIfAbsent G src) dst
  let t := (src, dst, rel)
  let old := match look G2.edges t with
             | some a => a
             | none => []
  let newA := (("type", Val.vStr rel) :: props).foldl (fun a kv => setA a kv.1 kv.2) old
  match look G2.edges t with
  | some _ => { G2 with edges := updateA G2.edges t newA }
  | none => { G2 with edges := G2.edges ++ [(t, newA)] }

/-! ## The table and the per-row field extraction (lines 79-134) -/

/-- One row: the cells keyed by column name.  pandas hands the loop rows
indexed by exactly the table's columns. -/
abbrev Row := List (String × Val)

/-- The materialised CSV (`pd.read_csv` is an excluded collaborator). -/
structure Table where
  cols : List String
  rows : List Row
deriving DecidableEq

/-- `r.get(c, d)`: the cell when the column exists, else the default. -/
def rget (r : Row) (c : String) (d : Val) : Val :=
  match look r c with
  | some v => v
  | none => d

/-- Lines 87-92: the fixed core column set. -/
def core_columns : List String :=
  ["brew_id", "barista", "brew_date", "roaster", "coffee_name", "roast_level", "roast_date",
   "brew_method", "brewer_brand", "brewer_model", "dose_g", "total_brew_time_sec",
   "notes_intensities", "sweetness_0_10", "acidity_0_10", "bitterness_0_10", "body_0_10",
   "overall_0_10", "grinder", "grind_setting", "filter_material", "notes_overall"]

/-- Lines 95-98: the required columns. -/
def requiredCols : List String :=
  ["brew_id", "barista", "brew_date", "roaster", "coffee_name", "roast_level",
   "brew_method", "brewer_brand", "brewer_model", "dose_g", "total_brew_time_sec",
   "notes_intensities", "sweetness_0_10", "acidity_0_10", "bitterness_0_10", "body_0_10",
   "overall_0_10"]

/-- The row's cleaned fields (lines 108-134). -/
structure Fields where
  brew_id : String
  barista : String
  brew_date : String
  dose_g : PyFloat
  total_brew_time_sec : PyFloat
  roaster : String
  coffee_name : String
  roast_date : String
  roast_level : String
  grinder : String
  grind_setting : String
  brew_method : String
  brewer_brand : String
  brewer_model : String
  filter_material : String
  notes_overall : String
  sweetness_0_10 : PyFloat
  acidity_0_10 : PyFloat
  bitterness_0_10 : PyFloat
  body_0_10 : PyFloat
  overall_0_10 : PyFloat
  note_map : List (String × ℤ)
deriving DecidableEq

/-- `str(r.get(c, "unknown"))`. -/
def getStrField (r : Row) (c : String) : String :=
  (rget r c (Val.vStr "unknown")).pyStr

/-- `str(r.get(c, "")) if pd.notna(r.get(c, None)) else ""` (lines 116, 125,
127). -/
def getOptStrField (r : Row) (c : String) : String :=
  if pdNotna (rget r c Val.vNone) then (rget r c (Val.vStr "")).pyStr else ""

/-- `float(r.get(c, 0.0))` for one required numeric column. -/
def getFloatField (r : Row) (c : String) : Option PyFloat :=
  tryFloat (rget r c (Val.vNum (.rat 0)))

/-- Lines 106-134, the fallible part of the loop body: every `float()` call
happens before any graph mutation, so the reads are one function.  The
seven `float()` conversions are the only calls that can raise; `Except`
carries the `ValueError` (its Python message text is not modelled). -/
def readFields (r : Row) : Except String Fields :=
  match getFloatField r "dose_g", getFloatField r "total_brew_time_sec",
        getFloatField r "sweetness_0_10", getFloatField r "acidity_0_10",
        getFloatField r "bitterness_0_10", getFloatField r "body_0_10",
        getFloatField r "overall_0_10" with
  | some dose, some tbt, some sw, some ac, some bi, some bo, some ov =>
      .ok
        { brew_id := getStrField r "brew_id"
          barista := getStrField r "barista"
          brew_date := getStrField r "brew_date"
          dose_g := dose
          total_brew_time_sec := tbt
          roaster := getStrField r "roaster"
          coffee_name := getStrField r "coffee_name"
          roast_date := getOptStrField r "roast_date"
          roast_level := getStrField r "roast_level"
          grinder := getStrField r "grinder"
          grind_setting := getStrField r "grind_setting"
          brew_method := getStrField r "brew_method"
          brewer_brand := getStrField r "brewer_brand"
          brewer_model := getStrField r "brewer_model"
          filter_material := getOptStrField r "filter_material"
          notes_overall := getOptStrField r "notes_overall"
          sweetness_0_10 := sw
          acidity_0_10 := ac
          bitterness_0_10 := bi
          body_0_10 := bo
          overall_0_10 := ov
          note_map := parse_note_intensities (Val.vStr (rget r "notes_intensities" (Val.vStr "")).pyStr) }
  | _, _, _, _, _, _, _ => .error "could not convert value to float"

/-! ## Node ids (lines 136-145) -/

def roasterId (f : Fields) : String := "roaster:" ++ slugify f.roaster

def beanlotId (f : Fields) : String :=
  "bean:" ++ slugify f.roaster ++ ":" ++ slugify f.coffee_name

def roastbatchId (f : Fields) : String :=
  "roast:" ++ slugify f.roaster ++ ":" ++ slugify f.coffee_name ++ ":" ++ slugify f.roast_level

def grinderId (f : Fields) : String := "grinder:" ++ slugify f.grinder

def brewerId (f : Fields) : String :=
  "brewer:" ++ slugify f.brewer_brand ++ "-" ++ slugify f.brewer_model

def brewSessionId (f : Fields) : String := "brew:" ++ slugify f.brew_id

def evalId (f : Fields) : String := "eval:" ++ slugify f.brew_id

/-! ## Dynamic columns and the row's graph mutations (lines 147-206) -/

/-- The body of the dynamic-column loop (lines 186-194) for one column:
skip core columns; skip missing (`NaN`/`None`) and `""` cells; store the
`float()` coercion when it succeeds, else `str(value)` unchanged. -/
def dynStep (r : Row) (m : Attrs) (col : String) : Attrs :=
  if col ∈ core_columns then m
  else
    let value := rget r col Val.vNone
    if pdNotna value ∧ value ≠ Val.vStr "" then
      match tryFloat value with
      | some fl => setA m col (Val.vNum fl)
      | none => setA m col (Val.vStr value.pyStr)
    else m

/-- Lines 184-194: `method_params` starts as `{brew_method: ...}` and folds
the dynamic-column loop over the table's columns. -/
def methodParams (cols : List String) (r : Row) (f : Fields) : Attrs :=
  cols.foldl (dynStep r) [("brew_method", Val.vStr f.brew_method)]

/-- Lines 147-206, the pure part of the loop body: the nodes are ensured,
then the fixed edge topology is emitted, the note nodes/edges folded in
source order. -/
def buildRowGraph (cols : List String) (G : Graph) (r : Row) (f : Fields) : Graph :=
  let G := ensure_node G (roasterId f) f.roaster "Roaster" []
  let G := ensure_node G (beanlotId f) f.coffee_name "BeanLot" []
  let G := ensure_node G (roastbatchId f) (f.coffee_name ++ " (" ++ f.roast_level ++ ")")
      "RoastBatch" [("roast_level", Val.vStr f.roast_level)]
  let G := ensure_node G (grinderId f) f.grinder "Grinder" []
  let G := ensure_node G (brewerId f) (pyStrip (f.brewer_brand ++ " " ++ f.brewer_model)) "Brewer"
      [("brand", Val.vStr f.brewer_brand), ("model", Val.vStr f.brewer_model),
       ("filter_material", Val.vStr f.filter_material)]
  let G := ensure_node G (brewSessionId f) f.brew_id "BrewSession"
      [("dose_g", Val.vNum f.dose_g), ("total_brew_time_sec", Val.vNum f.total_brew_time_sec),
       ("notes_overall", Val.vStr f.notes_overall), ("barista", Val.vStr f.barista),
       ("brew_date", Val.vStr f.brew_date)]
  let G := ensure_node G (evalId f) ("Eval " ++ f.brew_id) "SensoryEvaluation"
      [("sweetness_0_10", Val.vNum f.sweetness_0_10), ("acidity_0_10", Val.vNum f.acidity_0_10),
       ("bitterness_0_10", Val.vNum f.bitterness_0_10), ("body_0_10", Val.vNum f.body_0_10),
       ("overall_0_10", Val.vNum f.overall_0_10)]
  let G := f.note_map.foldl (fun G nm =>
      ensure_node G ("note:" ++ slugify nm.1) nm.1 "FlavorNote" []) G
  let mp := methodParams cols r f
  let G := add_edge G (roasterId f) "PRODUCES" (beanlotId f) []
  let G := add_edge G (beanlotId f) "ROASTED_AS" (roastbatchId f) [("roast_date", Val.vStr f.roast_date)]
  let G := add_edge G (brewSessionId f) "USES_GRINDER" (grinderId f) [("grind_setting", Val.vStr f.grind_setting)]
  let G := add_edge G (brewSessionId f) "BREWED_WITH" (brewerId f) mp
  let G := add_edge G (brewSessionId f) "USES_ROAST" (roastbatchId f) []
  let G := add_edge G (brewSessionId f) "EVALUATED_AS" (evalId f) []
  f.note_map.foldl (fun G nm =>
      add_edge G (evalId f) "HAS_NOTE" ("note:" ++ slugify nm.1)
        [("intensity", Val.vInt nm.2)]) G

/-- One iteration of the row loop: read the fields (fatal on a coercion
error), then mutate the graph. -/
def processRow (cols : List String) (G : Graph) (r : Row) : Except String Graph :=
  match readFields r with
  | .error e => .error e
  | .ok f => .ok (buildRowGraph cols G r f)

/-- A single quote character, for rendering Python's list repr. -/
def pyQuote : String := String.singleton (Char.ofNat 39)

/-- Python's `f"{missing}"` for a list of strings: `repr` of the list. -/
def pyReprStrList (l : List String) : String :=
  "[" ++ String.intercalate ", " (l.map (fun c => pyQuote ++ c ++ pyQuote)) ++ "]"

/-- `build_graph_from_brews` (lines 79-208) on the materialised table:
required-column validation first (one `ValueError` naming every missing
column, before any row runs), then the row loop folded over the rows; any
row error aborts the whole batch. -/
def build_graph_from_brews (df : Table) : Except String Graph :=
  let missing := requiredCols.filter (fun c => ¬ c ∈ df.cols)
  if missing ≠ [] then
    .error ("Missing required columns: " ++ pyReprStrList missing)
  else
    df.rows.foldlM (processRow df.cols) emptyMDG

/-! ## Association-list lemmas -/

theorem look_append {α β : Type} [DecidableEq α] (l₁ l₂ : List (α × β)) (k : α) :
    look (l₁ ++ l₂) k = match look l₁ k with
      | some v => some v
      | none => look l₂ k := by
  induction l₁ with
  | nil => simp [look]
  | cons p t ih =>
      by_cases h : p.1 = k <;> simp [look, h, ih]

theorem look_map_upd_self {α β : Type} [DecidableEq α] (l : List (α × β)) (k : α) (v : β) :
    look (l.map (fun p => if p.1 = k then (k, v) else p)) k = (look l k).map (fun _ => v) := by
  induction l with
  | nil => simp [look]
  | cons p t ih =>
      by_cases h : p.1 = k
      · simp [look, h]
      · simp [look, h, ih]

theorem look_map_upd_ne {α β : Type} [DecidableEq α] (l : List (α × β)) {k k' : α} (v : β)
    (h : k' ≠ k) :
    look (l.map (fun p => if p.1 = k' then (k', v) else p)) k = look l k := by
  induction l with
  | nil => simp [look]
  | cons p t ih =>
      by_cases hp : p.1 = k'
      · have hk : ¬ p.1 = k := by rw [hp]; exact h
        simp [look, hp, hk, ih, h]
      · simp only [List.map_cons, if_neg hp]
        by_cases hk : p.1 = k
        · simp [look, hk]
        · simp [look, hk, ih]

theorem look_setA_self {α β : Type} [DecidableEq α] (l : List (α × β)) (k : α) (v : β) :
    look (setA l k v) k = some v := by
  unfold setA
  by_cases h : (look l k).isSome
  · rcases Option.isSome_iff_exists.mp h with ⟨w, hw⟩
    simp [h, look_map_upd_self, hw]
  · simp [h, look_append]
    have : look l k = none := Option.not_isSome_iff_eq_none.mp h
    simp [this, look]

theorem look_setA_ne {α β : Type} [DecidableEq α] (l : List (α × β)) {k k' : α} (v : β)
    (h : k' ≠ k) : look (setA l k' v) k = look l k := by
  unfold setA
  by_cases hs : (look l k').isSome
  · simp [hs, look_map_upd_ne l v h]
  · simp [hs, look_append]
    cases hl : look l k with
    | none => simp [look, h]
    | some w => simp

theorem look_updateA_self {α β : Type} [DecidableEq α] (l : List (α × β)) (k : α) (v : β) :
    look (updateA l k v) k = (look l k).map (fun _ => v) :=
  look_map_upd_self l k v

theorem look_updateA_ne {α β : Type} [DecidableEq α] (l : List (α × β)) {k k' : α} (v : β)
    (h : k' ≠ k) : look (updateA l k' v) k = look l k :=
  look_map_upd_ne l v h

/-! ## mergeProps lemmas -/

theorem mergeProps_cons (attrs : Attrs) (kv : String × Val) (props : Attrs) :
    mergeProps attrs (kv :: props) =
      mergeProps
        (if kv.2 ≠ Val.vNone ∧ kv.2 ≠ Val.vStr "" ∧
            (look attrs kv.1 = none ∨ look attrs kv.1 = some Val.vNone ∨
              look attrs kv.1 = some (Val.vStr "")) then
          setA attrs kv.1 kv.2
        else attrs) props := rfl

/-- A stored value that is neither `None` nor `""` survives the merge loop
unchanged. -/
theorem mergeProps_lookup_nonempty {attrs : Attrs} (props : Attrs) {k : String} {v : Val}
    (h : look attrs k = some v) (h1 : v ≠ Val.vNone) (h2 : v ≠ Val.vStr "") :
    look (mergeProps attrs props) k = some v := by
  induction props generalizing attrs with
  | nil => exact h
  | cons kv rest ih =>
      rw [mergeProps_cons]
      by_cases hk : kv.1 = k
      · subst hk
        have : ¬ (look attrs kv.1 = none ∨ look attrs kv.1 = some Val.vNone ∨
            look attrs kv.1 = some (Val.vStr "")) := by
          rw [h]
          rintro (hc | hc | hc)
          · exact Option.noConfusion hc
          · exact h1 (Option.some.inj hc)
          · exact h2 (Option.some.inj hc)
        rw [if_neg (by tauto)]
        exact ih h
      · by_cases hc : kv.2 ≠ Val.vNone ∧ kv.2 ≠ Val.vStr "" ∧
            (look attrs kv.1 = none ∨ look attrs kv.1 = some Val.vNone ∨
              look attrs kv.1 = some (Val.vStr ""))
        · rw [if_pos hc]
          exact ih (by rw [look_setA_ne attrs kv.2 hk]; exact h)
        · rw [if_neg hc]
          exact ih h

/-- Entries whose value is `None` or `""` are never written: the merge loop
leaves the key's stored value alone. -/
theorem mergeProps_lookup_empty_new {attrs : Attrs} (props : Attrs) {k : String}
    (h : ∀ kv ∈ props, kv.1 = k → kv.2 = Val.vNone ∨ kv.2 = Val.vStr "") :
    look (mergeProps attrs props) k = look attrs k := by
  induction props generalizing attrs with
  | nil => rfl
  | cons kv rest ih =>
      rw [mergeProps_cons]
      have hrest : ∀ kv ∈ rest, kv.1 = k → kv.2 = Val.vNone ∨ kv.2 = Val.vStr "" :=
        fun kv hm => h kv (List.mem_cons_of_mem _ hm)
      by_cases hk : kv.1 = k
      · have := h kv (List.mem_cons_self _ _) hk
        rw [if_neg (by tauto)]
        exact ih hrest
      · by_cases hc : kv.2 ≠ Val.vNone ∧ kv.2 ≠ Val.vStr "" ∧
            (look attrs kv.1 = none ∨ look attrs kv.1 = some Val.vNone ∨
              look attrs kv.1 = some (Val.vStr ""))
        · rw [if_pos hc, ih hrest, look_setA_ne attrs kv.2 hk]
        · rw [if_neg hc]
          exact ih hrest

/-- A key the property dict does not carry is untouched by the merge loop. -/
theorem mergeProps_lookup_not_key {attrs : Attrs} (props : Attrs) {k : String}
    (h : ∀ kv ∈ props, kv.1 ≠ k) :
    look (mergeProps attrs props) k = look attrs k :=
  mergeProps_lookup_empty_new props (fun kv hm hk => absurd hk (h kv hm))


/-! ## Claim C2: first-write-wins for node attributes -/

/-- C2: for every node and attribute key, once the attribute holds a
non-empty, non-null value, no later `ensure_node` call changes it (the first
non-empty write wins); and a later call supplying `None`/`""` for a key
never clears the stored value. -/
theorem C2_ensure_node_first_write_wins (G : Graph) (node_id label node_type k : String)
    (props : Attrs) (v : Val) :
    (nodeAttr G node_id k = some v → v ≠ Val.vNone → v ≠ Val.vStr "" →
      nodeAttr (ensure_node G node_id label node_type props) node_id k = some v) ∧
    ((look G.nodes node_id).isSome →
      (∀ kv ∈ props, kv.1 = k → kv.2 = Val.vNone ∨ kv.2 = Val.vStr "") →
      nodeAttr (ensure_node G node_id label node_type props) node_id k = nodeAttr G node_id k) := by
  constructor
  · intro hset h1 h2
    unfold nodeAttr at hset ⊢
    cases hG : look G.nodes node_id with
    | none => rw [hG] at hset; exact absurd hset (by simp)
    | some attrs =>
        rw [hG] at hset
        simp only [Option.some_bind] at hset
        unfold ensure_node
        rw [hG]
        show (look (updateA G.nodes node_id (mergeProps attrs props)) node_id).bind
          (fun a => look a k) = some v
        rw [look_updateA_self, hG]
        simp only [Option.map_some', Option.some_bind]
        exact mergeProps_lookup_nonempty props hset h1 h2
  · intro hex hprops
    rcases Option.isSome_iff_exists.mp hex with ⟨attrs, hG⟩
    unfold nodeAttr ensure_node
    rw [hG]
    show (look (updateA G.nodes node_id (mergeProps attrs props)) node_id).bind
        (fun a => look a k) = (some attrs).bind (fun a => look a k)
    rw [look_updateA_self, hG]
    simp only [Option.map_some', Option.some_bind]
    exact mergeProps_lookup_empty_new props hprops

/-- Witness for C2: a node whose attribute `a` is `"X"` keeps it when a
later call supplies `a = "Y"`, `b = None`. -/
theorem C2_witness :
    nodeAttr (ensure_node ⟨[("n", [("a", Val.vStr "X")])], []⟩ "n" "l" "T"
      [("a", Val.vStr "Y"), ("b", Val.vNone)]) "n" "a" = some (Val.vStr "X") :=
  (C2_ensure_node_first_write_wins ⟨[("n", [("a", Val.vStr "X")])], []⟩ "n" "l" "T" "a"
    [("a", Val.vStr "Y"), ("b", Val.vNone)] (Val.vStr "X")).1 (by decide) (by decide) (by decide)

/-! ## Claim C10: ensure_node never rewrites label or type -/

/-- C10: for an existing node, `ensure_node` leaves the stored `label` and
`type` attributes untouched, whatever (possibly different, non-empty) label
and type the call supplies — only the merge loop over `props` runs, and the
program's calls never put a `label`/`type` key into `props`. -/
theorem C10_ensure_node_label_type_frame (G : Graph) (node_id l t : String) (props : Attrs)
    (hex : (look G.nodes node_id).isSome)
    (hl : ∀ kv ∈ props, kv.1 ≠ "label") (ht : ∀ kv ∈ props, kv.1 ≠ "type") :
    nodeAttr (ensure_node G node_id l t props) node_id "label" = nodeAttr G node_id "label" ∧
    nodeAttr (ensure_node G node_id l t props) node_id "type" = nodeAttr G node_id "type" := by
  rcases Option.isSome_iff_exists.mp hex with ⟨attrs, hG⟩
  unfold nodeAttr ensure_node
  rw [hG]
  constructor
  · show (look (updateA G.nodes node_id (mergeProps attrs props)) node_id).bind
        (fun a => look a "label") = (some attrs).bind (fun a => look a "label")
    rw [look_updateA_self, hG]
    simp only [Option.map_some', Option.some_bind]
    exact mergeProps_lookup_not_key props hl
  · show (look (updateA G.nodes node_id (mergeProps attrs props)) node_id).bind
        (fun a => look a "type") = (some attrs).bind (fun a => look a "type")
    rw [look_updateA_self, hG]
    simp only [Option.map_some', Option.some_bind]
    exact mergeProps_lookup_not_key props ht

/-- Witness for C10: a later call with a different non-empty label and type
leaves the stored `label = "A"`, `type = "T1"` in place. -/
theorem C10_witness :
    nodeAttr (ensure_node ⟨[("n", [("label", Val.vStr "A"), ("type", Val.vStr "T1")])], []⟩
      "n" "B" "T2" [("x", Val.vStr "y")]) "n" "label" = some (Val.vStr "A") ∧
    nodeAttr (ensure_node ⟨[("n", [("label", Val.vStr "A"), ("type", Val.vStr "T1")])], []⟩
      "n" "B" "T2" [("x", Val.vStr "y")]) "n" "type" = some (Val.vStr "T1") := by
  have h := C10_ensure_node_label_type_frame
    ⟨[("n", [("label", Val.vStr "A"), ("type", Val.vStr "T1")])], []⟩ "n" "B" "T2"
    [("x", Val.vStr "y")] (by decide) (by decide) (by decide)
  exact ⟨h.1.trans (by decide), h.2.trans (by decide)⟩


/-! ## Edge-update lemmas -/

/-- The dict-update fold leaves keys it never writes alone. -/
theorem look_foldl_setA_not_key (l : List (String × Val)) (a : Attrs) {k : String}
    (h : ∀ kv ∈ l, kv.1 ≠ k) :
    look (l.foldl (fun a kv => setA a kv.1 kv.2) a) k = look a k := by
  induction l generalizing a with
  | nil => rfl
  | cons kv t ih =>
      rw [List.foldl_cons, ih _ (fun kv hm => h kv (List.mem_cons_of_mem _ hm)),
        look_setA_ne a kv.2 (h kv (List.mem_cons_self _ _))]

/-- `dict.update` semantics of the fold: a key the new pairs carry takes the
new value, any other key keeps the stored one (keys of the new pairs
assumed distinct, as Python keyword dicts are). -/
theorem look_foldl_setA (l : List (String × Val)) (a : Attrs) (k : String)
    (hnd : (l.map Prod.fst).Nodup) :
    look (l.foldl (fun a kv => setA a kv.1 kv.2) a) k =
      match look l k with
      | some v => some v
      | none => look a k := by
  induction l generalizing a with
  | nil => rfl
  | cons kv t ih =>
      rw [List.map_cons, List.nodup_cons] at hnd
      rw [List.foldl_cons]
      by_cases hk : kv.1 = k
      · subst hk
        have hnot : ∀ p ∈ t, p.1 ≠ kv.1 := by
          intro p hp hne
          exact hnd.1 (hne ▸ List.mem_map_of_mem Prod.fst hp)
        rw [look_foldl_setA_not_key t _ hnot, look_setA_self]
        simp [look]
      · rw [ih _ hnd.2]
        simp only [look, if_neg hk]
        cases look t k with
        | none => rw [look_setA_ne a kv.2 hk]
        | some v => rfl

theorem edges_ensure_node (G : Graph) (i l t : String) (props : Attrs) :
    (ensure_node G i l t props).edges = G.edges := by
  unfold ensure_node
  cases look G.nodes i <;> rfl

theorem edges_addNodeIfAbsent (G : Graph) (n : String) :
    (addNodeIfAbsent G n).edges = G.edges := by
  unfold addNodeIfAbsent
  cases look G.nodes n <;> rfl

/-- The edge attribute dict `add_edge` stores under the written triple:
the old dict (empty for a fresh edge) updated with `type` and the new
properties. -/
theorem look_edges_add_edge_self (G : Graph) (src rel dst : String) (props : Attrs) :
    look (add_edge G src rel dst props).edges (src, dst, rel) =
      some ((("type", Val.vStr rel) :: props).foldl (fun a kv => setA a kv.1 kv.2)
        (match look G.edges (src, dst, rel) with | some a => a | none => [])) := by
  unfold add_edge
  dsimp only
  have he : (addNodeIfAbsent (addNodeIfAbsent G src) dst).edges = G.edges := by
    rw [edges_addNodeIfAbsent, edges_addNodeIfAbsent]
  rw [he]
  cases hE : look G.edges (src, dst, rel) with
  | none =>
      simp only [he, hE, look_append]
      simp [look]
  | some a =>
      simp only [he, hE]
      rw [look_updateA_self, hE]
      rfl

/-- `add_edge` leaves every other triple's attributes alone. -/
theorem look_edges_add_edge_ne (G : Graph) (src rel dst : String) (props : Attrs)
    {t' : String × String × String} (h : t' ≠ (src, dst, rel)) :
    look (add_edge G src rel dst props).edges t' = look G.edges t' := by
  unfold add_edge
  dsimp only
  have he : (addNodeIfAbsent (addNodeIfAbsent G src) dst).edges = G.edges := by
    rw [edges_addNodeIfAbsent, edges_addNodeIfAbsent]
  rw [he]
  cases hE : look G.edges (src, dst, rel) with
  | none =>
      simp only [he, hE, look_append]
      cases hL : look G.edges t' with
      | none =>
          have h2 : ¬ (src, dst, rel) = t' := fun hh => h hh.symm
          simp [look, h2]
      | some a => simp
  | some a =>
      simp only [he, hE]
      rw [look_updateA_ne _ _ (fun hh => h hh.symm)]

/-- Two triples with different relationship types are different. -/
theorem triple_ne_of_rel_ne {t t' : String × String × String} (h : t.2.2 ≠ t'.2.2) :
    t ≠ t' := fun he => h (by rw [he])

/-! ## Claim C1: edge re-add semantics -/

/-- C1 (amended): re-adding an edge with the same (source, destination,
relationship-type) triple merges the new payload into the stored attribute
dict key by key — the later call wins for every key it supplies, but a key
only the earlier payload carried survives with its old value (networkx
`update`, not replacement). -/
theorem C1_add_edge_updates_payload (G : Graph) (src rel dst k : String) (props : Attrs)
    (hnd : (props.map Prod.fst).Nodup) (hk : k ≠ "type") :
    edgeAttr (add_edge G src rel dst props) (src, dst, rel) k =
      match look props k with
      | some v => some v
      | none => edgeAttr G (src, dst, rel) k := by
  unfold edgeAttr
  rw [look_edges_add_edge_self]
  simp only [Option.some_bind]
  rw [List.foldl_cons, look_foldl_setA props _ k hnd]
  cases hp : look props k with
  | some v => rfl
  | none =>
      dsimp only
      rw [look_setA_ne _ _ (Ne.symm hk)]
      cases hE : look G.edges (src, dst, rel) with
      | none => simp [look]
      | some a => simp

/-- Witness for C1's amended theorem: re-adding the edge with payload
`b = 2` onto a stored payload `a = 1, b = 9` yields `a = 1` (survives) and
`b = 2` (overwritten). -/
theorem C1_witness :
    edgeAttr (add_edge ⟨[("s", []), ("d", [])],
        [(("s", "d", "R"), [("type", Val.vStr "R"), ("a", Val.vInt 1), ("b", Val.vInt 9)])]⟩
      "s" "R" "d" [("b", Val.vInt 2)]) ("s", "d", "R") "b" = some (Val.vInt 2) ∧
    edgeAttr (add_edge ⟨[("s", []), ("d", [])],
        [(("s", "d", "R"), [("type", Val.vStr "R"), ("a", Val.vInt 1), ("b", Val.vInt 9)])]⟩
      "s" "R" "d" [("b", Val.vInt 2)]) ("s", "d", "R") "a" = some (Val.vInt 1) := by
  constructor
  · exact (C1_add_edge_updates_payload ⟨[("s", []), ("d", [])],
        [(("s", "d", "R"), [("type", Val.vStr "R"), ("a", Val.vInt 1), ("b", Val.vInt 9)])]⟩
      "s" "R" "d" "b" [("b", Val.vInt 2)] (by decide) (by decide)).trans (by decide)
  · exact (C1_add_edge_updates_payload ⟨[("s", []), ("d", [])],
        [(("s", "d", "R"), [("type", Val.vStr "R"), ("a", Val.vInt 1), ("b", Val.vInt 9)])]⟩
      "s" "R" "d" "a" [("b", Val.vInt 2)] (by decide) (by decide)).trans (by decide)


/-! ## A concrete well-formed row, shared by the concrete test tables below -/

/-- Cells for every required column, all of them well-typed. -/
def sampleCells : Row :=
  [("brew_id", Val.vStr "b1"), ("barista", Val.vStr "ana"), ("brew_date", Val.vStr "2024-01-01"),
   ("roaster", Val.vStr "Roasty"), ("coffee_name", Val.vStr "Gesha"),
   ("roast_level", Val.vStr "light"), ("brew_method", Val.vStr "v60"),
   ("brewer_brand", Val.vStr "Hario"), ("brewer_model", Val.vStr "V60"),
   ("dose_g", Val.vNum (.rat 18)), ("total_brew_time_sec", Val.vNum (.rat 180)),
   ("notes_intensities", Val.vStr "chocolate:4"), ("sweetness_0_10", Val.vNum (.rat 7)),
   ("acidity_0_10", Val.vNum (.rat 6)), ("bitterness_0_10", Val.vNum (.rat 2)),
   ("body_0_10", Val.vNum (.rat 5)), ("overall_0_10", Val.vNum (.rat 8))]

/-! ## Claim C5: schema validation -/

/-- C5: whatever the rows hold, a table whose schema lacks required columns
fails with the single error naming all the missing columns — the rows are
never reached and no graph is produced. -/
theorem C5_schema_validation (df : Table)
    (h : requiredCols.filter (fun c => ¬ c ∈ df.cols) ≠ []) :
    build_graph_from_brews df =
      Except.error ("Missing required columns: " ++
        pyReprStrList (requiredCols.filter (fun c => ¬ c ∈ df.cols))) := by
  unfold build_graph_from_brews
  dsimp only
  rw [if_pos h]

/-- Witness for C5: a table having only a `brew_id` column errors out. -/
theorem C5_witness :
    build_graph_from_brews ⟨["brew_id"], [[("brew_id", Val.vStr "b1")]]⟩ =
      Except.error ("Missing required columns: " ++
        pyReprStrList (requiredCols.filter (fun c => ¬ c ∈ ["brew_id"]))) :=
  C5_schema_validation ⟨["brew_id"], [[("brew_id", Val.vStr "b1")]]⟩ (by decide)

/-! ## Claim C6: a failed numeric coercion aborts the whole batch -/

/-- A failing row anywhere in the fold makes the fold error out. -/
theorem foldlM_processRow_error (cols : List String) (rows : List Row) (r : Row) (G : Graph)
    (hr : r ∈ rows) (e : String) (hf : readFields r = Except.error e) :
    ∃ msg, rows.foldlM (processRow cols) G = Except.error msg := by
  induction rows generalizing G with
  | nil => cases hr
  | cons a t ih =>
      rw [List.foldlM_cons]
      cases hra : processRow cols G a with
      | error e2 => exact ⟨e2, rfl⟩
      | ok G2 =>
          rcases List.mem_cons.mp hr with h1 | h2
          · subst h1
            unfold processRow at hra
            rw [hf] at hra
            cases hra
          · exact ih G2 h2

/-- C6: when some row's required numeric field fails `float()` coercion, the
whole build returns an error — the value is not defaulted and no partial
graph reaches the caller. -/
theorem C6_coercion_error_aborts (df : Table) (r : Row) (hr : r ∈ df.rows)
    (hf : ∃ e, readFields r = Except.error e) :
    ∃ msg, build_graph_from_brews df = Except.error msg := by
  unfold build_graph_from_brews
  dsimp only
  by_cases hm : requiredCols.filter (fun c => ¬ c ∈ df.cols) ≠ []
  · exact ⟨_, by rw [if_pos hm]⟩
  · rw [if_neg hm]
    rcases hf with ⟨e, hf⟩
    exact foldlM_processRow_error df.cols df.rows r emptyMDG hr e hf

/-- Witness for C6: a table whose only row carries `dose_g = "abc"` errors
out as a whole. -/
theorem C6_witness :
    ∃ msg, build_graph_from_brews
      ⟨requiredCols, [setA sampleCells "dose_g" (Val.vStr "abc")]⟩ = Except.error msg :=
  C6_coercion_error_aborts ⟨requiredCols, [setA sampleCells "dose_g" (Val.vStr "abc")]⟩
    (setA sampleCells "dose_g" (Val.vStr "abc")) (by decide)
    ⟨"could not convert value to float", rfl⟩


/-! ## Claim C7: the structured-field parser never raises -/

/-- C7: the parser is total (malformed segments are skipped, mirroring the
source's catch-and-continue): the reference input keeps exactly
`chocolate = 4` and `floral = 2`, dropping the integer-less and empty-key
segments; non-string input (`None`, ints, floats) and blank strings give an
empty mapping. -/
theorem C7_parser_robustness :
    parse_note_intensities (Val.vStr "chocolate:4;fruit:x;:5;floral:2") =
      [("chocolate", 4), ("floral", 2)] ∧
    parse_note_intensities Val.vNone = [] ∧
    (∀ i : ℤ, parse_note_intensities (Val.vInt i) = []) ∧
    (∀ f : PyFloat, parse_note_intensities (Val.vNum f) = []) ∧
    (∀ s : String, pyStripWSL s.toList = [] → parse_note_intensities (Val.vStr s) = []) := by
  refine ⟨by decide, rfl, fun i => rfl, fun f => rfl, fun s hs => ?_⟩
  show (if pyStripWSL s.toList = [] then [] else
    (((splitOnChar ';' s.toList).map pyStripWSL).filter (fun p => p ≠ [])).foldl (fun out p =>
      if p.contains ':' then
        let q := splitFirstColon p
        let note := (pyStripWSL q.1).asString
        match parsePyInt q.2.asString with
        | some i => if note ≠ "" then setA out note i else out
        | none => out
      else out) []) = []
  rw [if_pos hs]

/-- Witness for C7: the blank input `"   "` parses to the empty mapping. -/
theorem C7_witness : parse_note_intensities (Val.vStr "   ") = [] :=
  C7_parser_robustness.2.2.2.2 "   " (by decide)

/-! ## Claim C8: identity stability -/

/-- C8: each node id is the fixed type prefix plus the slugs of the natural
key fields, so rows whose fields normalize to the same slugs resolve to the
same node id for that entity — a pure function of the fields, independent
of row order. -/
theorem C8_identity_stability (f1 f2 : Fields) :
    (slugify f1.roaster = slugify f2.roaster → roasterId f1 = roasterId f2) ∧
    (slugify f1.roaster = slugify f2.roaster → slugify f1.coffee_name = slugify f2.coffee_name →
      beanlotId f1 = beanlotId f2) ∧
    (slugify f1.roaster = slugify f2.roaster → slugify f1.coffee_name = slugify f2.coffee_name →
      slugify f1.roast_level = slugify f2.roast_level → roastbatchId f1 = roastbatchId f2) ∧
    (slugify f1.grinder = slugify f2.grinder → grinderId f1 = grinderId f2) ∧
    (slugify f1.brewer_brand = slugify f2.brewer_brand →
      slugify f1.brewer_model = slugify f2.brewer_model → brewerId f1 = brewerId f2) ∧
    (slugify f1.brew_id = slugify f2.brew_id →
      brewSessionId f1 = brewSessionId f2 ∧ evalId f1 = evalId f2) := by
  unfold roasterId beanlotId roastbatchId grinderId brewerId brewSessionId evalId
  exact ⟨fun h => by rw [h], fun h h2 => by rw [h, h2], fun h h2 h3 => by rw [h, h2, h3],
    fun h => by rw [h], fun h h2 => by rw [h, h2],
    fun h => ⟨by rw [h], by rw [h]⟩⟩

/-- A fixed record of fields in which only the roaster name varies. -/
def fieldsWithRoaster (ro : String) : Fields :=
  { brew_id := "b1", barista := "ana", brew_date := "d", dose_g := .rat 18,
    total_brew_time_sec := .rat 180, roaster := ro, coffee_name := "Gesha",
    roast_date := "", roast_level := "light", grinder := "unknown",
    grind_setting := "unknown", brew_method := "v60", brewer_brand := "Hario",
    brewer_model := "V60", filter_material := "", notes_overall := "",
    sweetness_0_10 := .rat 7, acidity_0_10 := .rat 6, bitterness_0_10 := .rat 2,
    body_0_10 := .rat 5, overall_0_10 := .rat 8, note_map := [] }

/-- Witness for C8: two roaster spellings differing in case and punctuation
slugify alike and get one roaster node id. -/
theorem C8_witness :
    roasterId (fieldsWithRoaster "Blue Bottle") = roasterId (fieldsWithRoaster "BLUE, Bottle!") :=
  (C8_identity_stability (fieldsWithRoaster "Blue Bottle")
    (fieldsWithRoaster "BLUE, Bottle!")).1 (by decide)


/-! ## Claim C3: field defaulting -/

/-- C3 counterexample: a row whose `grinder` and `dose_g` columns are
present but hold missing cells (pandas `NaN`) is read as the string
`str(nan) = "nan"` and the float `NaN` — not as `"unknown"` and `0`. -/
theorem C3_counterexample :
    (readFields (setA (sampleCells ++ [("grinder", Val.vNum .nan)]) "dose_g"
        (Val.vNum .nan))).toOption.map (fun f => (f.grinder, f.dose_g)) =
      some ("nan", PyFloat.nan) ∧
    ("nan" : String) ≠ "unknown" ∧ PyFloat.nan ≠ .rat 0 :=
  ⟨rfl, by decide, by decide⟩

/-- C3 (amended): the `"unknown"` / zero defaults of `r.get` fire only when
the column is absent from the row's index altogether (for required numeric
columns that cannot reach row processing, the schema check runs first); a
column that is present with a missing (`NaN`) cell is read as the string
`"nan"` for string fields and as float `NaN` for numeric fields. -/
theorem C3_field_defaults (r : Row) (f : Fields) (h : readFields r = Except.ok f) :
    (look r "grinder" = none → f.grinder = "unknown") ∧
    (look r "grind_setting" = none → f.grind_setting = "unknown") ∧
    (look r "grinder" = some (Val.vNum .nan) → f.grinder = "nan") ∧
    (look r "dose_g" = some (Val.vNum .nan) → f.dose_g = .nan) ∧
    (look r "dose_g" = none → f.dose_g = .rat 0) := by
  unfold readFields at h
  split at h
  · next dose tbt sw ac bi bo ov hd htb hsw hac hbi hbo hov =>
      injection h with h
      subst h
      refine ⟨fun hg => ?_, fun hg => ?_, fun hg => ?_, fun hg => ?_, fun hg => ?_⟩
      · simp [getStrField, rget, hg, Val.pyStr]
      · simp [getStrField, rget, hg, Val.pyStr]
      · simp [getStrField, rget, hg, Val.pyStr, floatRepr]
      · unfold getFloatField rget at hd
        rw [hg] at hd
        simp only [tryFloat] at hd
        exact (Option.some.inj hd).symm
      · unfold getFloatField rget at hd
        rw [hg] at hd
        simp only [tryFloat] at hd
        exact (Option.some.inj hd).symm
  · exact absurd h (by simp)

/-- Witness for C3's amended theorem: the sample row has no `grinder` /
`grind_setting` columns, so both fields read `"unknown"`. -/
theorem C3_witness :
    (readFields sampleCells).toOption.map (fun f => (f.grinder, f.grind_setting)) =
      some ("unknown", "unknown") := by
  cases hf : readFields sampleCells with
  | error e =>
      have h1 : (readFields sampleCells).toOption.isSome = true := rfl
      rw [hf] at h1
      exact Bool.noConfusion h1
  | ok f =>
      have h := C3_field_defaults sampleCells f hf
      simp only [Except.toOption, Option.map_some']
      rw [h.1 (by decide), h.2.1 (by decide)]


/-! ## Dynamic-column lemmas -/

theorem look_eq_none_iff_not_mem {α β : Type} [DecidableEq α] (l : List (α × β)) (k : α) :
    look l k = none ↔ k ∉ l.map Prod.fst := by
  induction l with
  | nil => simp [look]
  | cons p t ih =>
      by_cases h : p.1 = k
      · simp [look, h]
      · rw [List.map_cons]
        simp only [look, if_neg h, List.mem_cons]
        rw [ih]
        constructor
        · rintro h1 (h2 | h2)
          · exact h h2.symm
          · exact h1 h2
        · exact fun h1 h2 => h1 (Or.inr h2)

theorem setA_keys_nodup {l : List (String × Val)} {k : String} {v : Val}
    (h : (l.map Prod.fst).Nodup) : ((setA l k v).map Prod.fst).Nodup := by
  unfold setA
  by_cases hs : (look l k).isSome
  · rw [if_pos hs]
    have : (l.map (fun p => if p.1 = k then (k, v) else p)).map Prod.fst = l.map Prod.fst := by
      rw [List.map_map]
      refine List.map_congr_left (fun p _ => ?_)
      by_cases hp : p.1 = k <;> simp [hp]
    rw [this]
    exact h
  · rw [if_neg hs]
    have hk : k ∉ l.map Prod.fst :=
      (look_eq_none_iff_not_mem l k).mp (Option.not_isSome_iff_eq_none.mp hs)
    simp [List.nodup_append, h, hk]

theorem dynStep_keys_nodup (r : Row) {m : Attrs} (col : String)
    (h : (m.map Prod.fst).Nodup) : ((dynStep r m col).map Prod.fst).Nodup := by
  unfold dynStep
  by_cases h1 : col ∈ core_columns
  · rwa [if_pos h1]
  · rw [if_neg h1]
    dsimp only
    by_cases h2 : pdNotna (rget r col Val.vNone) ∧ rget r col Val.vNone ≠ Val.vStr ""
    · rw [if_pos h2]
      cases tryFloat (rget r col Val.vNone) <;> exact setA_keys_nodup h
    · rwa [if_neg h2]

theorem methodParams_keys_nodup (cols : List String) (r : Row) (f : Fields) :
    ((methodParams cols r f).map Prod.fst).Nodup := by
  unfold methodParams
  have : ∀ (cs : List String) (m : Attrs), (m.map Prod.fst).Nodup →
      ((cs.foldl (dynStep r) m).map Prod.fst).Nodup := by
    intro cs
    induction cs with
    | nil => exact fun m h => h
    | cons c t ih => exact fun m h => ih _ (dynStep_keys_nodup r c h)
  exact this cols _ (by simp)

theorem look_dynStep_ne (r : Row) (m : Attrs) {col col' : String} (h : col' ≠ col) :
    look (dynStep r m col') col = look m col := by
  unfold dynStep
  by_cases h1 : col' ∈ core_columns
  · rw [if_pos h1]
  · rw [if_neg h1]
    dsimp only
    by_cases h2 : pdNotna (rget r col' Val.vNone) ∧ rget r col' Val.vNone ≠ Val.vStr ""
    · rw [if_pos h2]
      cases tryFloat (rget r col' Val.vNone) <;> exact look_setA_ne m _ h
    · rw [if_neg h2]

theorem look_dynStep_self (r : Row) (m : Attrs) {col : String} (h : col ∉ core_columns) :
    look (dynStep r m col) col =
      if pdNotna (rget r col Val.vNone) ∧ rget r col Val.vNone ≠ Val.vStr "" then
        some (match tryFloat (rget r col Val.vNone) with
          | some fl => Val.vNum fl
          | none => Val.vStr (rget r col Val.vNone).pyStr)
      else look m col := by
  unfold dynStep
  rw [if_neg h]
  dsimp only
  by_cases h2 : pdNotna (rget r col Val.vNone) ∧ rget r col Val.vNone ≠ Val.vStr ""
  · rw [if_pos h2, if_pos h2]
    cases tryFloat (rget r col Val.vNone) <;> exact look_setA_self m col _
  · rw [if_neg h2, if_neg h2]

theorem look_foldl_dynStep_not_mem (r : Row) (cols : List String) :
    ∀ (m : Attrs) (col : String), col ∉ cols →
      look (cols.foldl (dynStep r) m) col = look m col := by
  induction cols with
  | nil => intro m col h; rfl
  | cons c t ih =>
      intro m col h
      rw [List.foldl_cons, ih _ col (fun hm => h (List.mem_cons_of_mem _ hm)),
        look_dynStep_ne r m (fun he : c = col => h (he ▸ List.mem_cons_self c t))]

theorem look_foldl_dynStep_mem (r : Row) (cols : List String) :
    ∀ (m : Attrs) (col : String), col ∈ cols → col ∉ core_columns →
    look (cols.foldl (dynStep r) m) col =
      if pdNotna (rget r col Val.vNone) ∧ rget r col Val.vNone ≠ Val.vStr "" then
        some (match tryFloat (rget r col Val.vNone) with
          | some fl => Val.vNum fl
          | none => Val.vStr (rget r col Val.vNone).pyStr)
      else look m col := by
  induction cols with
  | nil => intro m col hmem _; cases hmem
  | cons c t ih =>
      intro m col hmem hcore
      rw [List.foldl_cons]
      by_cases hc : c = col
      · subst hc
        by_cases ht : c ∈ t
        · rw [ih _ c ht hcore, look_dynStep_self r m hcore]
          by_cases h2 : pdNotna (rget r c Val.vNone) ∧ rget r c Val.vNone ≠ Val.vStr "" <;>
            simp [h2]
        · rw [look_foldl_dynStep_not_mem r t _ c ht, look_dynStep_self r m hcore]
      · rw [ih _ col (List.mem_of_ne_of_mem (fun he => hc he.symm) hmem) hcore,
          look_dynStep_ne r m (fun he => hc he)]

/-- The edges are untouched by the note-node fold (it only ensures nodes). -/
theorem edges_note_ensure_fold (notes : List (String × ℤ)) (G : Graph) :
    (notes.foldl (fun G nm => ensure_node G ("note:" ++ slugify nm.1) nm.1 "FlavorNote" []) G).edges
      = G.edges := by
  induction notes generalizing G with
  | nil => rfl
  | cons nm t ih => rw [List.foldl_cons, ih, edges_ensure_node]

/-- The HAS_NOTE edge fold leaves every triple of another relationship type
alone. -/
theorem look_edges_note_fold (notes : List (String × ℤ)) (G : Graph) (eid : String)
    {t : String × String × String} (h : t.2.2 ≠ "HAS_NOTE") :
    look ((notes.foldl (fun G nm =>
        add_edge G eid "HAS_NOTE" ("note:" ++ slugify nm.1) [("intensity", Val.vInt nm.2)]) G)).edges
      t = look G.edges t := by
  induction notes generalizing G with
  | nil => rfl
  | cons nm tl ih =>
      rw [List.foldl_cons, ih, look_edges_add_edge_ne _ _ _ _ _ (triple_ne_of_rel_ne h)]

/-! ## Claim C4: dynamic column capture -/

/-- C4 counterexample: the dynamic value `" hot "` (non-numeric, padded) is
stored as the unmodified `str(value)`, not as the trimmed form the claim
asserts. -/
theorem C4_counterexample :
    look (methodParams (requiredCols ++ ["brew_notes_x"])
        (sampleCells ++ [("brew_notes_x", Val.vStr " hot ")]) (fieldsWithRoaster "Roasty"))
      "brew_notes_x" = some (Val.vStr " hot ") ∧
    Val.vStr " hot " ≠ Val.vStr (pyStrip " hot ") :=
  ⟨by decide, by decide⟩

/-- C4 (amended): a dynamic column (outside the core set) with a present
(non-`NaN`, non-`""`) cell is stored coerced to float when `float()`
accepts it and otherwise as the **unmodified** string form `str(value)`
(not trimmed); an absent or empty cell leaves no key.  The resulting map is
the payload of the row's BREWED_WITH edge: after the row is processed, that
edge carries each such key with its coerced value (and any key the row does
not supply falls back to the previous graph's value for that edge). -/
theorem C4_dynamic_columns (cols : List String) (r : Row) (f : Fields) (col : String)
    (hcore : col ∉ core_columns) :
    (col ∈ cols →
      look (methodParams cols r f) col =
        (if pdNotna (rget r col Val.vNone) ∧ rget r col Val.vNone ≠ Val.vStr "" then
          some (match tryFloat (rget r col Val.vNone) with
            | some fl => Val.vNum fl
            | none => Val.vStr (rget r col Val.vNone).pyStr)
        else none)) ∧
    (∀ (G : Graph) (k : String), k ≠ "type" →
      edgeAttr (buildRowGraph cols G r f) (brewSessionId f, brewerId f, "BREWED_WITH") k =
        (match look (methodParams cols r f) k with
         | some v => some v
         | none => edgeAttr G (brewSessionId f, brewerId f, "BREWED_WITH") k)) := by
  constructor
  · intro hmem
    unfold methodParams
    rw [look_foldl_dynStep_mem r cols _ col hmem hcore]
    have hbm : col ≠ "brew_method" := fun he => hcore (by rw [he]; decide)
    have hbm2 : ¬ "brew_method" = col := fun he => hbm he.symm
    have : look [("brew_method", Val.vStr f.brew_method)] col = none := by
      simp [look, hbm2]
    rw [this]
  · intro G k hk
    unfold buildRowGraph
    dsimp only
    unfold edgeAttr
    rw [look_edges_note_fold _ _ _
        (show ("BREWED_WITH" : String) ≠ "HAS_NOTE" from by decide),
      look_edges_add_edge_ne _ _ _ _ _ (triple_ne_of_rel_ne
        (show ("BREWED_WITH" : String) ≠ "EVALUATED_AS" from by decide)),
      look_edges_add_edge_ne _ _ _ _ _ (triple_ne_of_rel_ne
        (show ("BREWED_WITH" : String) ≠ "USES_ROAST" from by decide)),
      look_edges_add_edge_self,
      look_edges_add_edge_ne _ _ _ _ _ (triple_ne_of_rel_ne
        (show ("BREWED_WITH" : String) ≠ "USES_GRINDER" from by decide)),
      look_edges_add_edge_ne _ _ _ _ _ (triple_ne_of_rel_ne
        (show ("BREWED_WITH" : String) ≠ "ROASTED_AS" from by decide)),
      look_edges_add_edge_ne _ _ _ _ _ (triple_ne_of_rel_ne
        (show ("BREWED_WITH" : String) ≠ "PRODUCES" from by decide)),
      edges_note_ensure_fold, edges_ensure_node, edges_ensure_node, edges_ensure_node,
      edges_ensure_node, edges_ensure_node, edges_ensure_node, edges_ensure_node]
    simp only [Option.some_bind]
    rw [List.foldl_cons, look_foldl_setA _ _ k (methodParams_keys_nodup cols r f)]
    cases hp : look (methodParams cols r f) k with
    | some v => rfl
    | none =>
        dsimp only
        rw [look_setA_ne _ _ (Ne.symm hk)]
        cases hE : look G.edges (brewSessionId f, brewerId f, "BREWED_WITH") with
        | none => simp [look]
        | some a => simp

/-- Witness for C4's amended theorem: a `water_temp_c` column holding
`"93"` lands on the BREWED_WITH edge as the float 93. -/
theorem C4_witness :
    look (methodParams (requiredCols ++ ["water_temp_c"])
        (sampleCells ++ [("water_temp_c", Val.vStr "93")]) (fieldsWithRoaster "Roasty"))
      "water_temp_c" = some (Val.vNum (.rat 93)) ∧
    edgeAttr (buildRowGraph (requiredCols ++ ["water_temp_c"]) emptyMDG
        (sampleCells ++ [("water_temp_c", Val.vStr "93")]) (fieldsWithRoaster "Roasty"))
      (brewSessionId (fieldsWithRoaster "Roasty"), brewerId (fieldsWithRoaster "Roasty"),
        "BREWED_WITH") "water_temp_c" = some (Val.vNum (.rat 93)) := by
  have h := C4_dynamic_columns (requiredCols ++ ["water_temp_c"])
    (sampleCells ++ [("water_temp_c", Val.vStr "93")]) (fieldsWithRoaster "Roasty")
    "water_temp_c" (by decide)
  have h1 : look (methodParams (requiredCols ++ ["water_temp_c"])
      (sampleCells ++ [("water_temp_c", Val.vStr "93")]) (fieldsWithRoaster "Roasty"))
      "water_temp_c" = some (Val.vNum (.rat 93)) := (h.1 (by decide)).trans (by decide)
  refine ⟨h1, ?_⟩
  rw [h.2 emptyMDG "water_temp_c" (by decide), h1]


/-! ## Claim C1: counterexample to wholesale payload replacement -/

/-- A two-row table whose rows produce the same BREWED_WITH triple: the
earlier row carries `water_temp_c = "93"`, the later row's cell is missing
(`NaN`), so the later payload has no `water_temp_c` key. -/
def c1Table : Table :=
  ⟨requiredCols ++ ["water_temp_c"],
   [sampleCells ++ [("water_temp_c", Val.vStr "93")],
    sampleCells ++ [("water_temp_c", Val.vNum .nan)]]⟩

set_option maxRecDepth 10000 in
/-- C1 counterexample: after both rows are processed, the BREWED_WITH edge
still carries `water_temp_c = 93` from the earlier row (first conjunct)
although the later row's payload holds no `water_temp_c` key (second
conjunct): the payload is updated key-by-key, not replaced wholesale. -/
theorem C1_counterexample :
    (match build_graph_from_brews c1Table with
     | .ok G => edgeAttr G ("brew:b1", "brewer:hario-v60", "BREWED_WITH") "water_temp_c"
     | .error _ => none) = some (Val.vNum (.rat 93)) ∧
    (match readFields (sampleCells ++ [("water_temp_c", Val.vNum .nan)]) with
     | .ok f => look (methodParams c1Table.cols
         (sampleCells ++ [("water_temp_c", Val.vNum .nan)]) f) "water_temp_c"
     | .error _ => some Val.vNone) = none :=
  ⟨by decide, by decide⟩


/-! ## Claim C9: slugify is idempotent

The proof characterises slugify output: every character is lowercase
alphanumeric or a hyphen, hyphens are never adjacent, and the result
neither starts nor ends with a hyphen (or it is the fallback `"unknown"`);
a nonempty string of that shape is a fixed point of every stage of
`slugify`. -/

/-- Adjacent hyphens never occur. -/
def NoDH (l : List Char) : Prop :=
  List.Chain' (fun a b => ¬(a = '-' ∧ b = '-')) l

theorem okChar_ne_hyphen {c : Char} (h : okChar c = true) : c ≠ '-' := by
  rintro rfl
  exact absurd h (by decide)

theorem okChar_toLower {c : Char} (h : okChar c = true) : c.toLower = c := by
  simp only [okChar, Bool.or_eq_true, Bool.and_eq_true, decide_eq_true_eq] at h
  unfold Char.toLower
  dsimp only
  rw [if_neg (by omega : ¬(c.toNat ≥ 65 ∧ c.toNat ≤ 90))]

theorem okChar_not_ws {c : Char} (h : okChar c = true) : c.isWhitespace = false := by
  by_contra hw
  rw [Bool.not_eq_false] at hw
  simp only [Char.isWhitespace, Bool.or_eq_true, decide_eq_true_eq] at hw
  rcases hw with ((rfl | rfl) | rfl) | rfl <;> exact absurd h (by decide)

theorem head_dropWhile_false (p : Char → Bool) (l : List Char) {c : Char}
    (h : (l.dropWhile p).head? = some c) : p c = false := by
  have hd := List.head?_dropWhile_not p l
  rw [h] at hd
  exact hd

theorem dropWhile_eq_self_of_all {p : Char → Bool} {l : List Char}
    (h : ∀ c ∈ l, p c = false) : l.dropWhile p = l := by
  cases l with
  | nil => rfl
  | cons a t =>
      rw [List.dropWhile_cons, if_neg (by rw [h a (List.mem_cons_self a t)]; simp)]

theorem collapseAux_cons_ok {a : Char} {t : List Char} (ha : okChar a = true) (b : Bool) :
    collapseAux (a :: t) b = a :: collapseAux t false := by
  show (if okChar a = true then a :: collapseAux t false
    else if b = true then collapseAux t true else '-' :: collapseAux t true)
    = a :: collapseAux t false
  rw [if_pos ha]

theorem collapseAux_cons_bad_true {a : Char} {t : List Char} (ha : ¬ okChar a = true) :
    collapseAux (a :: t) true = collapseAux t true := by
  show (if okChar a = true then a :: collapseAux t false
    else if true = true then collapseAux t true else '-' :: collapseAux t true)
    = collapseAux t true
  rw [if_neg ha, if_pos rfl]

theorem collapseAux_cons_bad_false {a : Char} {t : List Char} (ha : ¬ okChar a = true) :
    collapseAux (a :: t) false = '-' :: collapseAux t true := by
  show (if okChar a = true then a :: collapseAux t false
    else if false = true then collapseAux t true else '-' :: collapseAux t true)
    = '-' :: collapseAux t true
  rw [if_neg ha, if_neg (by decide : ¬ (false = true))]

/-- Every character the collapse emits is accepted or a hyphen. -/
theorem collapseAux_mem {l : List Char} {b : Bool} {c : Char} (h : c ∈ collapseAux l b) :
    okChar c = true ∨ c = '-' := by
  induction l generalizing b with
  | nil => cases h
  | cons a t ih =>
      by_cases ha : okChar a = true
      · rw [collapseAux_cons_ok ha] at h
        rcases List.mem_cons.mp h with rfl | h2
        · exact Or.inl ha
        · exact ih h2
      · cases b with
        | true =>
            rw [collapseAux_cons_bad_true ha] at h
            exact ih h
        | false =>
            rw [collapseAux_cons_bad_false ha] at h
            rcases List.mem_cons.mp h with rfl | h2
            · exact Or.inr rfl
            · exact ih h2

/-- With the flag set (a replaced run just ended), the first emitted
character is accepted — never a hyphen. -/
theorem collapseAux_true_head {l : List Char} {c : Char}
    (h : (collapseAux l true).head? = some c) : okChar c = true := by
  induction l with
  | nil => cases h
  | cons a t ih =>
      by_cases ha : okChar a = true
      · rw [collapseAux_cons_ok ha] at h
        cases h
        exact ha
      · rw [collapseAux_cons_bad_true ha] at h
        exact ih h

/-- The collapse never emits two adjacent hyphens. -/
theorem collapseAux_noDH (l : List Char) (b : Bool) : NoDH (collapseAux l b) := by
  induction l generalizing b with
  | nil => exact List.chain'_nil
  | cons a t ih =>
      by_cases ha : okChar a = true
      · rw [collapseAux_cons_ok ha]
        exact List.chain'_cons'.mpr
          ⟨fun c _ hand => okChar_ne_hyphen ha hand.1, ih false⟩
      · cases b with
        | true =>
            rw [collapseAux_cons_bad_true ha]
            exact ih true
        | false =>
            rw [collapseAux_cons_bad_false ha]
            exact List.chain'_cons'.mpr
              ⟨fun c hc hand => okChar_ne_hyphen (collapseAux_true_head hc) hand.2, ih true⟩

/-- A list of accepted characters and isolated hyphens is a fixed point of
the collapse. -/
theorem collapseAux_id {l : List Char} (hall : ∀ c ∈ l, okChar c = true ∨ c = '-')
    (hdh : NoDH l) :
    collapseAux l false = l ∧ (l.head? ≠ some '-' → collapseAux l true = l) := by
  induction l with
  | nil => exact ⟨rfl, fun _ => rfl⟩
  | cons a t ih =>
      have hallt : ∀ c ∈ t, okChar c = true ∨ c = '-' :=
        fun c hc => hall c (List.mem_cons_of_mem _ hc)
      have hiht := ih hallt hdh.tail
      rcases hall a (List.mem_cons_self a t) with ha | ha
      · refine ⟨?_, fun _ => ?_⟩
        · rw [collapseAux_cons_ok ha, hiht.1]
        · rw [collapseAux_cons_ok ha, hiht.1]
      · subst ha
        refine ⟨?_, fun hh => absurd rfl hh⟩
        rw [collapseAux_cons_bad_false (by decide)]
        have hhd : t.head? ≠ some '-' := by
          intro hc
          exact (List.chain'_cons'.mp hdh).1 '-' hc ⟨rfl, rfl⟩
        rw [hiht.2 hhd]

theorem mem_dropHyphens {l : List Char} {c : Char} (h : c ∈ dropHyphens l) : c ∈ l :=
  (List.dropWhile_sublist _).subset h

theorem mem_stripHyphens {l : List Char} {c : Char} (h : c ∈ stripHyphens l) : c ∈ l := by
  unfold stripHyphens at h
  rw [List.mem_reverse] at h
  have h2 := mem_dropHyphens h
  rw [List.mem_reverse] at h2
  exact mem_dropHyphens h2

theorem NoDH.of_reverse {l : List Char} (h : NoDH l) : NoDH l.reverse := by
  unfold NoDH at h ⊢
  rw [List.chain'_reverse]
  exact h.imp (fun a b hab hand => hab ⟨hand.2, hand.1⟩)

theorem noDH_dropHyphens {l : List Char} (h : NoDH l) : NoDH (dropHyphens l) :=
  h.suffix (List.dropWhile_suffix _)

theorem noDH_stripHyphens {l : List Char} (h : NoDH l) : NoDH (stripHyphens l) :=
  (noDH_dropHyphens (noDH_dropHyphens h).of_reverse).of_reverse

/-- The last element survives dropping a prefix, when anything survives. -/
theorem getLast?_dropHyphens {l : List Char} {c : Char}
    (h : (dropHyphens l).getLast? = some c) : l.getLast? = some c := by
  have hd : dropHyphens l = l.dropWhile (fun c => decide (c = '-')) := rfl
  rw [hd] at h
  have hne : l.dropWhile (fun c => decide (c = '-')) ≠ [] := by
    intro he
    rw [he] at h
    cases h
  have hsuf : l.dropWhile (fun c => decide (c = '-')) <:+ l := List.dropWhile_suffix _
  rcases hsuf with ⟨pre, hpre⟩
  rw [← hpre, List.getLast?_append_of_ne_nil pre hne]
  exact h

/-- The stripped result never starts with a hyphen. -/
theorem head_stripHyphens {l : List Char} {c : Char}
    (h : (stripHyphens l).head? = some c) : c ≠ '-' := by
  unfold stripHyphens at h
  rw [List.head?_reverse] at h
  have h2 := getLast?_dropHyphens h
  rw [List.getLast?_reverse] at h2
  have := head_dropWhile_false _ _ h2
  simpa using this

/-- The stripped result never ends with a hyphen. -/
theorem last_stripHyphens {l : List Char} {c : Char}
    (h : (stripHyphens l).getLast? = some c) : c ≠ '-' := by
  unfold stripHyphens at h
  rw [List.getLast?_reverse] at h
  have := head_dropWhile_false _ _ h
  simpa using this

theorem map_toLower_id {l : List Char} (h : ∀ c ∈ l, okChar c = true ∨ c = '-') :
    l.map Char.toLower = l := by
  induction l with
  | nil => rfl
  | cons a t ih =>
      rw [List.map_cons, ih (fun c hc => h c (List.mem_cons_of_mem _ hc))]
      rcases h a (List.mem_cons_self a t) with ha | ha
      · rw [okChar_toLower ha]
      · subst ha
        rfl

theorem pyStripWSL_eq_self {l : List Char} (h : ∀ c ∈ l, okChar c = true ∨ c = '-') :
    pyStripWSL l = l := by
  have hws : ∀ c ∈ l, c.isWhitespace = false := by
    intro c hc
    rcases h c hc with hok | hh
    · exact okChar_not_ws hok
    · subst hh
      decide
  unfold pyStripWSL
  rw [dropWhile_eq_self_of_all hws,
    dropWhile_eq_self_of_all (fun c hc => hws c (List.mem_reverse.mp hc)),
    List.reverse_reverse]

theorem stripHyphens_eq_self {l : List Char}
    (hh : ∀ c, l.head? = some c → c ≠ '-') (hl : ∀ c, l.getLast? = some c → c ≠ '-') :
    stripHyphens l = l := by
  unfold stripHyphens dropHyphens
  have h1 : l.dropWhile (fun c => decide (c = '-')) = l := by
    cases l with
    | nil => rfl
    | cons a t =>
        rw [List.dropWhile_cons,
          if_neg (by simp only [decide_eq_true_eq]; exact hh a rfl)]
  rw [h1]
  have h2 : l.reverse.dropWhile (fun c => decide (c = '-')) = l.reverse := by
    cases hr : l.reverse with
    | nil => rfl
    | cons a t =>
        have ha : l.getLast? = some a := by
          rw [← List.head?_reverse, hr]
          rfl
        rw [List.dropWhile_cons,
          if_neg (by simp only [decide_eq_true_eq]; exact hl a ha)]
  rw [h2, List.reverse_reverse]

theorem asString_toList (s : String) : s.toList.asString = s := rfl

/-- A nonempty canonical string is a fixed point of slugify. -/
theorem slugify_eq_self {u : List Char} (hne : u ≠ [])
    (hall : ∀ c ∈ u, okChar c = true ∨ c = '-') (hdh : NoDH u)
    (hh : ∀ c, u.head? = some c → c ≠ '-') (hl : ∀ c, u.getLast? = some c → c ≠ '-') :
    slugify u.asString = u.asString := by
  unfold slugify
  dsimp only
  have htl : (u.asString).toList = u := rfl
  rw [htl, pyStripWSL_eq_self hall, map_toLower_id hall, (collapseAux_id hall hdh).1,
    stripHyphens_eq_self hh hl, if_neg hne]

/-- C9: the identifier normalizer is idempotent — normalizing an
already-normalized token returns it unchanged. -/
theorem C9_slugify_idempotent (s : String) : slugify (slugify s) = slugify s := by
  by_cases hne : stripHyphens (collapseAux ((pyStripWSL s.toList).map Char.toLower) false) = []
  · have h1 : slugify s = "unknown" := by
      unfold slugify
      dsimp only
      rw [if_pos hne]
    rw [h1]
    rfl
  · set u := stripHyphens (collapseAux ((pyStripWSL s.toList).map Char.toLower) false) with hu
    have h1 : slugify s = u.asString := by
      unfold slugify
      dsimp only
      rw [if_neg hne]
    have hall : ∀ c ∈ u, okChar c = true ∨ c = '-' :=
      fun c hc => collapseAux_mem (mem_stripHyphens (hu ▸ hc))
    have hdh : NoDH u := by
      rw [hu]
      exact noDH_stripHyphens (collapseAux_noDH _ false)
    have hh : ∀ c, u.head? = some c → c ≠ '-' := fun c hc => head_stripHyphens (hu ▸ hc)
    have hl : ∀ c, u.getLast? = some c → c ≠ '-' := fun c hc => last_stripHyphens (hu ▸ hc)
    rw [h1]
    exact slugify_eq_self hne hall hdh hh hl


end CoffeeKG
